import Mathlib

/-!
Verification of the `ori-shell-executor` plugin (`src/main.go`).

Go strings are modelled as `List Char` (`Str`).  The helpers from Go's
`strings` package used by the program (`HasPrefix`, `HasSuffix`, `Contains`,
`TrimPrefix`, `TrimSuffix`, `TrimSpace`, `SplitN(·,"*",2)`, `Split(·,"\n")`)
are translated one-to-one below, prefixed with `go`.

Effectful parts are made explicit:
* reading the settings file and JSON-unmarshalling it become an
  `Option RawObj` input (`none` = unreadable file or failed unmarshal);
* the agent context directory, `os.Getwd` and `os.UserHomeDir` become an
  `Env` record;
* `runtime.GOOS == "windows"` becomes a `Bool` parameter;
* the outcome of `cmd.Run()` and `execCtx.Err() == context.DeadlineExceeded`
  become explicit inputs of the result builder.
-/

abbrev Str := List Char

/-- Convenience: a Go string literal as a `List Char`. -/
def str (s : String) : Str := s.toList

/-- `strings.HasPrefix(s, pre)`. -/
def goHasPrefix (s pre : Str) : Bool := pre.isPrefixOf s

/-- `strings.HasSuffix(s, suf)`. -/
def goHasSuffix (s suf : Str) : Bool := suf.isSuffixOf s

/-- `strings.Contains(s, sub)`. -/
def goContains : Str → Str → Bool
  | [], sub => sub.isPrefixOf []
  | s@(_ :: t), sub => sub.isPrefixOf s || goContains t sub

/-- `strings.TrimSuffix(s, suf)`: drops `suf` from the end when present. -/
def goTrimSuffix (s suf : Str) : Str :=
  if goHasSuffix s suf then s.take (s.length - suf.length) else s

/-- `strings.TrimPrefix(s, pre)`: drops `pre` from the front when present. -/
def goTrimPrefix (s pre : Str) : Str :=
  if goHasPrefix s pre then s.drop pre.length else s

/-- `strings.SplitN(pat, "*", 2)`: `some (before, after)` at the first `'*'`,
`none` when no `'*'` occurs (in which case `SplitN` yields a single part and
the `len(parts) == 2` test in `matchesPattern` fails). -/
def splitFirstStar : Str → Option (Str × Str)
  | [] => none
  | c :: t =>
    if c = '*' then some ([], t)
    else
      match splitFirstStar t with
      | some (h, r) => some (c :: h, r)
      | none => none

/-- First block of `matchesPattern` (main.go:415-428): pattern ends in `*`. -/
def matchSuffixStar (command pat : Str) : Bool :=
  if goHasSuffix pat ['*'] then
    let pre := goTrimSuffix pat ['*']
    if goHasPrefix command pre then true
    else if goHasSuffix pre [' '] then command == goTrimSuffix pre [' ']
    else false
  else false

/-- Second block of `matchesPattern` (main.go:429-434): pattern starts with `*`. -/
def matchPrefixStar (command pat : Str) : Bool :=
  if goHasPrefix pat ['*'] then goHasSuffix command (goTrimPrefix pat ['*'])
  else false

/-- Third block of `matchesPattern` (main.go:435-441): split at the first `*`
into `(head, tail)` and require head-prefix and tail-suffix. -/
def matchSplit (command pat : Str) : Bool :=
  match splitFirstStar pat with
  | some (h, t) => goHasPrefix command h && goHasSuffix command t
  | none => false

/-- `matchesPattern` (main.go:406-445).  The three sequential `if` blocks of
the Go code each `return true` on success and otherwise fall through, which is
exactly a disjunction. -/
def matchesPattern (command pat : Str) : Bool :=
  if command = pat then true
  else if goContains pat ['*'] then
    matchSuffixStar command pat || matchPrefixStar command pat ||
      matchSplit command pat
  else false

/-- The operator list of `containsShellMetacharacters` (main.go:453-463). -/
def metaOperators : List Str :=
  [str "&&", str "||", str "|", str ";", str "&", str ">", str "<",
    str "`", str "$("]

/-- `containsShellMetacharacters` (main.go:448-470): newline check followed by
the operator loop. -/
def containsShellMetacharacters (command : Str) : Bool :=
  goContains command (str "\n") ||
    metaOperators.any (fun op => goContains command op)

/-- The `Settings` struct (main.go:32-38).  Note: there is no field for
allowed working directories. -/
structure Settings where
  timeoutSeconds : Int
  defaultWorkingDir : Str
  allowedPatterns : List Str
  blockedPatterns : List Str
  allowShellMetacharacters : Bool
deriving DecidableEq

/-- `defaultSettings` (main.go:41-73).  The braces of the fork-bomb pattern
are written with string escapes. -/
def defaultSettings : Settings where
  timeoutSeconds := 60
  defaultWorkingDir := []
  allowedPatterns :=
    [str "./scripts/*", str "git *", str "go *", str "make *", str "npm *",
      str "ls *", str "cat *", str "echo *", str "pwd", str "which *",
      str "env"]
  blockedPatterns :=
    [str "rm -rf /*", str "rm -rf ~/*", str "sudo *", str "> /dev/*",
      str "curl * | sh", str "curl * | bash", str "wget * | sh",
      str "wget * | bash", str "chmod 777 *", str ":()\x7b :|:& \x7d;:",
      str "dd if=*", str "mkfs.*", str "eval *"]
  allowShellMetacharacters := false

/-- The denial reasons the program can produce before spawning a process
(`Execute`, main.go:79-118).  The source defines no working-directory
containment denial: no `WorkingDirNotAllowed` exists anywhere in the code. -/
inductive Denial where
  | emptyCommand
  | metacharactersRejected
  | blockedPattern (pat : Str)
  | notAllowed (pats : List Str)
  | workingDirResolutionFailed
deriving DecidableEq

/-- `validateShellMetacharacters` (main.go:295-305). -/
def validateShellMetacharacters (command : Str) (allow : Bool) :
    Except Denial Unit :=
  if allow then .ok ()
  else if containsShellMetacharacters command then
    .error .metacharactersRejected
  else .ok ()

/-- `validateNotBlocked` (main.go:285-292): first matching blocked pattern
wins. -/
def validateNotBlocked (command : Str) : List Str → Except Denial Unit
  | [] => .ok ()
  | pat :: rest =>
    if matchesPattern command pat then .error (.blockedPattern pat)
    else validateNotBlocked command rest

/-- `validateAllowed` (main.go:308-321): empty list means allow-all; the Go
loop returns `nil` exactly when some pattern matches. -/
def validateAllowed (command : Str) (allowed : List Str) :
    Except Denial Unit :=
  if allowed = [] then .ok ()
  else if allowed.any (fun pat => matchesPattern command pat) then .ok ()
  else .error (.notAllowed allowed)

/-- The block-list / allow-list phase of `Execute` (main.go:92-100). -/
def patternChecks (command : Str) (s : Settings) : Except Denial Unit :=
  match validateNotBlocked command s.blockedPatterns with
  | .error e => .error e
  | .ok _ => validateAllowed command s.allowedPatterns

/-- The authorization sequence of `Execute` (main.go:88-100): metacharacter
gate, then blocked patterns, then allowed patterns; the first failing check
returns. -/
def authorize (command : Str) (s : Settings) : Except Denial Unit :=
  match validateShellMetacharacters command s.allowShellMetacharacters with
  | .error e => .error e
  | .ok _ => patternChecks command s

/-- The request parameters (`OriShellExecutorParams`, generated from
`plugin.yaml`; fields as read by `Execute`). -/
structure Params where
  command : Str
  workingDir : Str
  shell : Str
  timeoutSeconds : Int
deriving DecidableEq

/-- Ambient process state consulted by `Execute`: the agent context
directory, `os.Getwd` (fallible) and `os.UserHomeDir` (fallible). -/
structure Env where
  agentDir : Str
  cwd : Option Str
  homeDir : Option Str

/-- `expandTilde` (main.go:324-337).  `filepath.Join` is modelled as
concatenation with a `/` separator; its path cleaning is not exercised by
any claim. -/
def expandTilde (path : Str) (home : Option Str) : Str :=
  if path = ['~'] then
    match home with
    | some h => h
    | none => path
  else if goHasPrefix path ['~', '/'] then
    match home with
    | some h => h ++ ['/'] ++ path.drop 2
    | none => path
  else path

/-- Working-directory determination in `Execute` (main.go:102-118):
request > settings default (tilde-expanded) > agent context > `os.Getwd`.
No containment check of any kind is applied to the result. -/
def resolveWorkingDir (p : Params) (s : Settings) (env : Env) :
    Except Denial Str :=
  if p.workingDir = [] then
    if s.defaultWorkingDir ≠ [] then
      .ok (expandTilde s.defaultWorkingDir env.homeDir)
    else if env.agentDir ≠ [] then .ok env.agentDir
    else
      match env.cwd with
      | some d => .ok d
      | none => .error .workingDirResolutionFailed
  else .ok p.workingDir

/-- Timeout determination in `Execute` (main.go:120-130). -/
def effectiveTimeout (requested policyDefault : Int) : Int :=
  let t1 := if requested ≤ 0 then policyDefault else requested
  let t2 := if t1 ≤ 0 then 60 else t1
  if t2 > 300 then 300 else t2

/-- Shell dispatch of `executeCommand` (main.go:346-367): the invoked program
and its argument vector; the command string is always a single argument. -/
def shellInvocation (shell command : Str) (isWindows : Bool) :
    Str × List Str :=
  if shell = str "powershell" ∨ shell = str "pwsh" then
    (str "powershell",
      [str "-NoProfile", str "-NonInteractive", str "-Command", command])
  else if shell = str "cmd" then (str "cmd", [str "/C", command])
  else if shell = str "bash" then (str "bash", [str "-c", command])
  else if shell = str "zsh" then (str "zsh", [str "-c", command])
  else if shell = str "sh" then (str "sh", [str "-c", command])
  else if isWindows then (str "cmd", [str "/C", command])
  else (str "sh", [str "-c", command])

/-- What `Execute` hands to the process spawn once every check has passed. -/
structure ExecPlan where
  command : Str
  workingDir : Str
  timeout : Int
  shellProg : Str
  shellArgs : List Str
deriving DecidableEq

/-- The checked portion of `Execute` (main.go:79-133) for a fixed settings
snapshot: empty-command guard, authorization, working-dir resolution, timeout
determination and shell dispatch.  `.ok` carries exactly the data passed on
to the spawned process; `.error` means no process is spawned. -/
def ExecuteCheck (p : Params) (s : Settings) (env : Env) (isWindows : Bool) :
    Except Denial ExecPlan :=
  if p.command = [] then .error .emptyCommand
  else
    match authorize p.command s with
    | .error e => .error e
    | .ok _ =>
      match resolveWorkingDir p s env with
      | .error e => .error e
      | .ok wd =>
        let t := effectiveTimeout p.timeoutSeconds s.timeoutSeconds
        let inv := shellInvocation p.shell p.command isWindows
        .ok ⟨p.command, wd, t, inv.1, inv.2⟩

/-- Values produced by `json.Unmarshal` into `map[string]interface{}`:
`nil`, `bool`, `float64`, `string`, `[]interface{}` or a nested map.  JSON
numbers are modelled as integers; no claim involves a fractional value. -/
inductive JValue where
  | jnull
  | jbool (b : Bool)
  | jnum (n : Int)
  | jstr (s : Str)
  | jarr (elems : List JValue)
  | jobj (fields : List (Str × JValue))

/-- A decoded settings file: the top-level JSON object. -/
abbrev RawObj := List (Str × JValue)

/-- Map lookup on the decoded object (keys of a Go map are distinct). -/
def lookupKey (m : RawObj) (k : Str) : Option JValue :=
  (m.find? (fun kv => kv.1 == k)).map (fun kv => kv.2)

/-- `unicode.IsSpace` restricted to the ASCII range (the settings values in
the claims contain no exotic whitespace). -/
def isSpaceChar (c : Char) : Bool :=
  c = ' ' || c = '\t' || c = '\n' || c = '\r' ||
    c = Char.ofNat 11 || c = Char.ofNat 12

/-- `strings.TrimSpace`. -/
def goTrimSpace (s : Str) : Str :=
  ((s.dropWhile isSpaceChar).reverse.dropWhile isSpaceChar).reverse

/-- `strings.Split(s, "\n")`. -/
def splitNewlines : Str → List Str
  | [] => [[]]
  | c :: t =>
    if c = '\n' then [] :: splitNewlines t
    else
      match splitNewlines t with
      | h :: r => (c :: h) :: r
      | [] => [[c]]

/-- `parseLines` (main.go:142-155). -/
def parseLines (s : Str) : List Str :=
  if s = [] then []
  else
    ((splitNewlines s).map goTrimSpace).filter (fun l => l != [])

/-- `strconv.Atoi` (range errors ignored; no claim involves overflow). -/
def goAtoi (s : Str) : Option Int :=
  let digitsVal : Str → Option Int := fun ds =>
    if ds ≠ [] ∧ ds.all Char.isDigit then
      some (ds.foldl (fun acc c => acc * 10 + (Int.ofNat (c.toNat - 48))) 0)
    else none
  match s with
  | '+' :: rest => digitsVal rest
  | '-' :: rest => (digitsVal rest).map (fun n => -n)
  | _ => digitsVal s

/-- `strconv.ParseBool`. -/
def goParseBool (s : Str) : Option Bool :=
  if s ∈ [str "1", str "t", str "T", str "TRUE", str "true", str "True"] then
    some true
  else if s ∈ [str "0", str "f", str "F", str "FALSE", str "false",
      str "False"] then
    some false
  else none

/-- `parseInt` (main.go:196-211) on JSON-decoded values (`int`/`int64` never
arise from `json.Unmarshal`). -/
def parseIntJ : JValue → Option Int
  | .jnum n => some n
  | .jstr s => goAtoi s
  | _ => none

/-- `parseBool` (main.go:179-194) on JSON-decoded values. -/
def parseBoolJ : JValue → Option Bool
  | .jbool b => some b
  | .jstr s => goParseBool s
  | .jnum n => some (n != 0)
  | _ => none

/-- `parseStringList` (main.go:157-177) on JSON-decoded values (the
`[]string` case never arises from `json.Unmarshal`). -/
def parseStringListJ : JValue → List Str
  | .jstr s => parseLines s
  | .jarr items =>
    items.filterMap (fun it =>
      match it with
      | .jstr s =>
        let t := goTrimSpace s
        if t = [] then none else some t
      | _ => none)
  | _ => []

/-- Field merge of `loadLegacySettings` (main.go:226-230) for
`timeout_seconds`; each `if` block of the Go function writes a distinct
field, so the merged record is assembled field-wise. -/
def mergedTimeout (m : RawObj) : Int :=
  match lookupKey m (str "timeout_seconds") with
  | some v =>
    match parseIntJ v with
    | some n => if 0 < n then n else defaultSettings.timeoutSeconds
    | none => defaultSettings.timeoutSeconds
  | none => defaultSettings.timeoutSeconds

/-- Field merge for `default_working_dir` (main.go:231-235). -/
def mergedDefaultWorkingDir (m : RawObj) : Str :=
  match lookupKey m (str "default_working_dir") with
  | some v =>
    match parseStringListJ v with
    | p :: _ => p
    | [] => defaultSettings.defaultWorkingDir
  | none => defaultSettings.defaultWorkingDir

/-- Field merge for `allowed_patterns` (main.go:236-240). -/
def mergedAllowedPatterns (m : RawObj) : List Str :=
  match lookupKey m (str "allowed_patterns") with
  | some v =>
    let l := parseStringListJ v
    if l = [] then defaultSettings.allowedPatterns else l
  | none => defaultSettings.allowedPatterns

/-- Field merge for `blocked_patterns` (main.go:241-245). -/
def mergedBlockedPatterns (m : RawObj) : List Str :=
  match lookupKey m (str "blocked_patterns") with
  | some v =>
    let l := parseStringListJ v
    if l = [] then defaultSettings.blockedPatterns else l
  | none => defaultSettings.blockedPatterns

/-- Field merge for `allow_shell_metacharacters` (main.go:246-250). -/
def mergedAllowMeta (m : RawObj) : Bool :=
  match lookupKey m (str "allow_shell_metacharacters") with
  | some v =>
    match parseBoolJ v with
    | some b => b
    | none => defaultSettings.allowShellMetacharacters
  | none => defaultSettings.allowShellMetacharacters

/-- `loadLegacySettings` (main.go:213-253): `none` when the file is
unreadable or `json.Unmarshal` fails (which includes valid JSON that is not
an object); otherwise the per-field merge over the defaults. -/
def loadLegacySettings (raw : Option RawObj) : Option Settings :=
  match raw with
  | none => none
  | some m =>
    some ⟨mergedTimeout m, mergedDefaultWorkingDir m,
      mergedAllowedPatterns m, mergedBlockedPatterns m, mergedAllowMeta m⟩

/-- `loadSettings` (main.go:257-282) collapsed to its first successful
source: a loadable file yields the merged settings, otherwise the built-in
defaults. -/
def settingsFromSource (raw : Option RawObj) : Settings :=
  match loadLegacySettings raw with
  | some s => s
  | none => defaultSettings

/-- `Execute` (main.go:79-133) end to end: the empty-command guard (which in
the source precedes `loadSettings`), settings loading, and the checked
pipeline. -/
def ExecuteTop (p : Params) (raw : Option RawObj) (env : Env)
    (isWindows : Bool) : Except Denial ExecPlan :=
  ExecuteCheck p (settingsFromSource raw) env isWindows

/-- The error value of `cmd.Run()` when it is non-nil: an `*exec.ExitError`
carrying the real exit code, or any other launch failure. -/
inductive RunError where
  | exitErr (code : Int) (msg : Str)
  | otherErr (msg : Str)
deriving DecidableEq

/-- The structured result serialized by `executeCommand` (main.go:379-398). -/
structure ExecutionResult where
  command : Str
  workingDir : Str
  stdout : Str
  stderr : Str
  exitCode : Int
  error : Option Str
deriving DecidableEq

/-- Decimal rendering of the timeout for the `%d` format verb. -/
def intToStr (n : Int) : Str := (toString n).toList

/-- The `fmt.Sprintf("command timed out after %d seconds", t)` message. -/
def timeoutMessage (t : Int) : Str :=
  str "command timed out after " ++ intToStr t ++ str " seconds"

/-- Result construction of `executeCommand` (main.go:376-402) as a function
of the run outcome: base record with exit code 0, overwritten on error by the
deadline / exit-error / other-error cases.  `executeCommand` itself always
returns this record with a nil Go error (the `json.MarshalIndent` error is
discarded), so no failure mode escapes the result. -/
def executeResult (command workingDir stdout stderr : Str)
    (timeoutSeconds : Int) (runErr : Option RunError)
    (deadlineExceeded : Bool) : ExecutionResult :=
  match runErr with
  | none => ⟨command, workingDir, stdout, stderr, 0, none⟩
  | some e =>
    if deadlineExceeded then
      ⟨command, workingDir, stdout, stderr, -1,
        some (timeoutMessage timeoutSeconds)⟩
    else
      match e with
      | .exitErr code msg =>
        ⟨command, workingDir, stdout, stderr, code, some msg⟩
      | .otherErr msg => ⟨command, workingDir, stdout, stderr, -1, some msg⟩

example : matchesPattern (str "git status") (str "git *") = true := by decide
example : matchesPattern (str "ls") (str "ls *") = true := by decide
example : matchesPattern (str "lsx") (str "ls *") = false := by decide
example : matchesPattern (str "aaa") (str "aa*") = true := by decide
example : containsShellMetacharacters (str "git status; rm -rf /") = true := by
  decide
example : authorize (str "pwd") defaultSettings = .ok () := by rfl
example : authorize (str "sudo ls") defaultSettings
    = .error (.blockedPattern (str "sudo *")) := by rfl

/-! ### Basic facts about the string helpers -/

theorem goHasPrefix_iff (s p : Str) : goHasPrefix s p = true ↔ p <+: s := by
  simp [goHasPrefix]

theorem goHasSuffix_iff (s p : Str) : goHasSuffix s p = true ↔ p <:+ s := by
  simp [goHasSuffix]

theorem goContains_iff (s sub : Str) : goContains s sub = true ↔ sub <:+: s := by
  induction s with
  | nil => simp [goContains]
  | cons c t ih => simp [goContains, ih, List.infix_cons_iff]

theorem goTrimSuffix_concat (P : Str) (c : Char) :
    goTrimSuffix (P ++ [c]) [c] = P := by
  have h : goHasSuffix (P ++ [c]) [c] = true := by
    simp [goHasSuffix]
  simp only [goTrimSuffix, h, if_true, List.length_append, List.length_cons,
    List.length_nil]
  rw [show P.length + (0 + 1) - 1 = P.length by omega]
  exact List.take_left P [c]

theorem splitFirstStar_no_star (P : Str) (h : '*' ∉ P) (w : Str) :
    splitFirstStar (P ++ '*' :: w) = some (P, w) := by
  induction P with
  | nil => simp [splitFirstStar]
  | cons c t ih =>
    have hc : c ≠ '*' := fun hh => h (hh ▸ List.mem_cons_self c t)
    have ht : '*' ∉ t := fun hh => h (List.mem_cons_of_mem _ hh)
    simp [splitFirstStar, hc, ih ht]

theorem splitFirstStar_append (B w x y : Str)
    (hs : splitFirstStar B = some (x, y)) :
    splitFirstStar (B ++ w) = some (x, y ++ w) := by
  induction B generalizing x y with
  | nil => simp [splitFirstStar] at hs
  | cons c t ih =>
    by_cases hc : c = '*'
    · subst hc
      simp only [splitFirstStar] at hs
      rw [if_pos trivial] at hs
      simp only [Option.some.injEq, Prod.mk.injEq] at hs
      simp [splitFirstStar, ← hs.1, ← hs.2]
    · simp only [splitFirstStar, if_neg hc] at hs
      cases hm : splitFirstStar t with
      | none => rw [hm] at hs; simp at hs
      | some pr =>
        obtain ⟨x', y'⟩ := pr
        rw [hm] at hs
        simp only [Option.some.injEq, Prod.mk.injEq] at hs
        simp [splitFirstStar, hc, ih x' y' hm, ← hs.1, ← hs.2]

theorem splitFirstStar_isSome (B : Str) (h : '*' ∈ B) :
    ∃ x y, splitFirstStar B = some (x, y) := by
  induction B with
  | nil => cases h
  | cons c t ih =>
    by_cases hc : c = '*'
    · exact ⟨[], t, by simp [splitFirstStar, hc]⟩
    · have ht : '*' ∈ t := by
        cases List.mem_cons.mp h with
        | inl hh => exact absurd hh.symm hc
        | inr hh => exact hh
      obtain ⟨x, y, hxy⟩ := ih ht
      exact ⟨c :: x, y, by simp [splitFirstStar, hc, hxy]⟩

theorem append_prefix_cancel (B u v : Str) :
    (B ++ u <+: B ++ v) ↔ (u <+: v) := by
  induction B with
  | nil => simp
  | cons c t ih => simp [List.cons_prefix_cons, ih]

/-- If a pattern ends in `*` and the command starts with the pattern's
prefix, `matchesPattern` succeeds through the first block. -/
theorem matchesPattern_of_prefixMatch (c P : Str)
    (h : goHasPrefix c P = true) :
    matchesPattern c (P ++ ['*']) = true := by
  have hstar : goContains (P ++ ['*']) ['*'] = true := by
    rw [goContains_iff]
    exact ⟨P, [], by simp⟩
  have hsuf : goHasSuffix (P ++ ['*']) ['*'] = true := by
    rw [goHasSuffix_iff]
    exact List.suffix_append P ['*']
  have hblock : matchSuffixStar c (P ++ ['*']) = true := by
    simp [matchSuffixStar, hsuf, goTrimSuffix_concat, h]
  by_cases hcp : c = P ++ ['*']
  · simp [matchesPattern, hcp]
  · simp [matchesPattern, hcp, hstar, hblock]

theorem matchesPattern_false_of_blocks (c p : Str) (hcp : c ≠ p)
    (h1 : matchSuffixStar c p = false) (h2 : matchPrefixStar c p = false)
    (h3 : matchSplit c p = false) : matchesPattern c p = false := by
  cases hg : goContains p ['*'] <;>
    simp [matchesPattern, hcp, hg, h1, h2, h3]

/-! ### Timeout determination (C6) -/

theorem effectiveTimeout_bounds (r d : Int) :
    1 ≤ effectiveTimeout r d ∧ effectiveTimeout r d ≤ 300 := by
  simp only [effectiveTimeout]
  split_ifs <;> omega

/-- Claim C6: for every request, the effective timeout used for execution
lies in [1, 300] seconds: a request-supplied value of ≤ 0 falls back to the
policy-configured default (itself defaulting to 60 when ≤ 0), and any value
greater than 300 is clamped to 300. -/
theorem C6_effective_timeout_clamped :
    (∀ (p : Params) (s : Settings) (env : Env) (w : Bool) (plan : ExecPlan),
      ExecuteCheck p s env w = .ok plan →
      1 ≤ plan.timeout ∧ plan.timeout ≤ 300 ∧
        plan.timeout = effectiveTimeout p.timeoutSeconds s.timeoutSeconds) ∧
    (∀ requested policyDefault : Int,
      (requested ≤ 0 → policyDefault ≤ 0 →
        effectiveTimeout requested policyDefault = 60) ∧
      (requested ≤ 0 → 0 < policyDefault →
        effectiveTimeout requested policyDefault =
          if 300 < policyDefault then 300 else policyDefault) ∧
      (0 < requested →
        effectiveTimeout requested policyDefault =
          if 300 < requested then 300 else requested)) := by
  constructor
  · intro p s env w plan h
    unfold ExecuteCheck at h
    split at h
    · exact absurd h (by simp)
    · split at h
      · exact absurd h (by simp)
      · split at h
        · exact absurd h (by simp)
        · simp only [Except.ok.injEq] at h
          subst h
          exact ⟨(effectiveTimeout_bounds _ _).1,
            (effectiveTimeout_bounds _ _).2, rfl⟩
  · intro r d
    refine ⟨fun h1 h2 => ?_, fun h1 h2 => ?_, fun h1 => ?_⟩ <;>
      · simp only [effectiveTimeout]
        split_ifs <;> omega

theorem C6_witness :
    (1 ≤ (60 : Int) ∧ (60 : Int) ≤ 300 ∧
      (60 : Int) = effectiveTimeout 0 defaultSettings.timeoutSeconds) ∧
    effectiveTimeout 0 (-7) = 60 ∧
    effectiveTimeout 0 200 = 200 ∧
    effectiveTimeout 400 1 = 300 := by
  refine ⟨C6_effective_timeout_clamped.1 ⟨str "pwd", str "/tmp", [], 0⟩
      defaultSettings ⟨[], none, none⟩ false
      ⟨str "pwd", str "/tmp", 60, str "sh", [str "-c", str "pwd"]⟩ rfl,
    ?_, ?_, ?_⟩
  · exact (C6_effective_timeout_clamped.2 0 (-7)).1 (by decide) (by decide)
  · have h := (C6_effective_timeout_clamped.2 0 200).2.1 (by decide) (by decide)
    simpa using h
  · have h := (C6_effective_timeout_clamped.2 400 1).2.2 (by decide)
    simpa using h

/-! ### Result encoding (C7) -/

/-- Claim C7: the executor never raises; the structured result has exit code
0 and no error on a clean exit, exit code -1 and a message naming the
configured timeout on deadline exceeded, the process's real exit code plus a
message on non-zero exit, and exit code -1 with the underlying error text on
any other launch failure.  (`executeResult` is a total function of the run
outcome, and `executeCommand` returns it with a nil Go error in every path.) -/
theorem C7_result_encoding :
    ∀ (cmd wd out errs : Str) (t code : Int) (msg : Str),
      executeResult cmd wd out errs t none false
        = ⟨cmd, wd, out, errs, 0, none⟩ ∧
      executeResult cmd wd out errs t none true
        = ⟨cmd, wd, out, errs, 0, none⟩ ∧
      executeResult cmd wd out errs t (some (.exitErr code msg)) false
        = ⟨cmd, wd, out, errs, code, some msg⟩ ∧
      executeResult cmd wd out errs t (some (.otherErr msg)) false
        = ⟨cmd, wd, out, errs, -1, some msg⟩ ∧
      executeResult cmd wd out errs t (some (.exitErr code msg)) true
        = ⟨cmd, wd, out, errs, -1, some (timeoutMessage t)⟩ ∧
      executeResult cmd wd out errs t (some (.otherErr msg)) true
        = ⟨cmd, wd, out, errs, -1, some (timeoutMessage t)⟩ ∧
      intToStr t <:+: timeoutMessage t := by
  intro cmd wd out errs t code msg
  exact ⟨rfl, rfl, rfl, rfl, rfl, rfl,
    ⟨str "command timed out after ", str " seconds",
      by simp [timeoutMessage, List.append_assoc]⟩⟩

/-! ### Empty command (C8) -/

/-- Claim C8: the empty command is rejected with the empty-command error
before any other check runs — for every settings source (the settings are
never consulted), every environment and OS, and before any process is
spawned (the result is a denial, not a plan). -/
theorem C8_empty_command_first :
    ∀ (raw : Option RawObj) (env : Env) (w : Bool) (wd sh : Str) (t : Int),
      ExecuteTop ⟨[], wd, sh, t⟩ raw env w = .error .emptyCommand := by
  intro raw env w wd sh t
  rfl

/-! ### Shell fallback (C9) -/

/-- Claim C9: for every shell string outside the recognized set
{powershell, pwsh, cmd, bash, zsh, sh} — including "auto", the empty string
and unrecognized names — the executor does not error but falls back to the
OS auto-detected shell: `cmd /C` on Windows and `sh -c` otherwise, the
command string passed as the single final argument. -/
theorem C9_shell_fallback :
    ∀ (shell cmd : Str),
      shell ∉ [str "powershell", str "pwsh", str "cmd", str "bash",
        str "zsh", str "sh"] →
      shellInvocation shell cmd true = (str "cmd", [str "/C", cmd]) ∧
      shellInvocation shell cmd false = (str "sh", [str "-c", cmd]) := by
  intro shell cmd h
  have h1 : ¬(shell = str "powershell") := fun e => h (by simp [e])
  have h2 : ¬(shell = str "pwsh") := fun e => h (by simp [e])
  have h3 : ¬(shell = str "cmd") := fun e => h (by simp [e])
  have h4 : ¬(shell = str "bash") := fun e => h (by simp [e])
  have h5 : ¬(shell = str "zsh") := fun e => h (by simp [e])
  have h6 : ¬(shell = str "sh") := fun e => h (by simp [e])
  constructor <;> simp [shellInvocation, h1, h2, h3, h4, h5, h6]

theorem C9_witness :
    shellInvocation (str "auto") (str "echo hello") true
      = (str "cmd", [str "/C", str "echo hello"]) ∧
    shellInvocation (str "auto") (str "echo hello") false
      = (str "sh", [str "-c", str "echo hello"]) :=
  C9_shell_fallback (str "auto") (str "echo hello") (by decide)

/-! ### The metacharacter gate and the block list (C2, C3) -/

theorem validateShellMetacharacters_pass (cmd : Str) (allow : Bool)
    (h : allow = true ∨ containsShellMetacharacters cmd = false) :
    validateShellMetacharacters cmd allow = .ok () := by
  rcases h with h | h
  · simp [validateShellMetacharacters, h]
  · cases allow <;> simp [validateShellMetacharacters, h]

theorem validateNotBlocked_of_find (cmd : Str) (l : List Str) (pat : Str)
    (h : l.find? (fun q => matchesPattern cmd q) = some pat) :
    validateNotBlocked cmd l = .error (.blockedPattern pat) := by
  induction l with
  | nil => simp [List.find?] at h
  | cons a rest ih =>
    by_cases ha : matchesPattern cmd a = true
    · rw [List.find?_cons_of_pos _ ha] at h
      simp only [Option.some.injEq] at h
      subst h
      simp [validateNotBlocked, ha]
    · rw [List.find?_cons_of_neg _ (by simpa using ha)] at h
      simpa [validateNotBlocked, ha] using ih h

/-- Claim C2 (amended): provided the command passes the metacharacter gate
(the flag is set or no metacharacter occurs), every command matching at
least one blocked pattern is denied with the BlockedPattern reason naming
the first matching blocked pattern, never reaching the allow-list check
(which is arbitrary here) or execution; at the pipeline level the command
must additionally be non-empty, since the empty-command guard precedes. -/
theorem C2_blocked_precedence :
    ∀ (cmd pat : Str) (s : Settings),
      (s.allowShellMetacharacters = true ∨
        containsShellMetacharacters cmd = false) →
      s.blockedPatterns.find? (fun q => matchesPattern cmd q) = some pat →
      authorize cmd s = .error (.blockedPattern pat) ∧
      (∀ (wd sh : Str) (t : Int) (env : Env) (w : Bool), cmd ≠ [] →
        ExecuteCheck ⟨cmd, wd, sh, t⟩ s env w
          = .error (.blockedPattern pat)) := by
  intro cmd pat s hmeta hfind
  have hm := validateShellMetacharacters_pass cmd
    s.allowShellMetacharacters hmeta
  have hb := validateNotBlocked_of_find cmd s.blockedPatterns pat hfind
  have hauth : authorize cmd s = .error (.blockedPattern pat) := by
    simp [authorize, hm, patternChecks, hb]
  refine ⟨hauth, fun wd sh t env w hne => ?_⟩
  simp [ExecuteCheck, hne, hauth]

/-- Claim C2 counterexample: the command "sudo rm;" matches the blocked
pattern "sudo *", yet `authorize` under the default settings denies it with
the metacharacter reason, not with BlockedPattern naming "sudo *", because
the metacharacter gate runs before the block-list check. -/
theorem C2_counterexample :
    matchesPattern (str "sudo rm;") (str "sudo *") = true ∧
    str "sudo *" ∈ defaultSettings.blockedPatterns ∧
    authorize (str "sudo rm;") defaultSettings
      = .error .metacharactersRejected :=
  ⟨by decide, by decide, rfl⟩

theorem C2_witness :
    authorize (str "sudo ls") defaultSettings
      = .error (.blockedPattern (str "sudo *")) ∧
    ExecuteCheck ⟨str "sudo ls", str "/tmp", [], 0⟩ defaultSettings
      ⟨[], none, none⟩ false = .error (.blockedPattern (str "sudo *")) := by
  have h := C2_blocked_precedence (str "sudo ls") (str "sudo *")
    defaultSettings (Or.inr (by decide)) (by decide)
  exact ⟨h.1, h.2 (str "/tmp") [] 0 ⟨[], none, none⟩ false (by decide)⟩

/-- Claim C3: when the flag is false, any command containing a newline or
one of the listed operator substrings is denied with the metacharacter
reason before the block-list and allow-list checks run (and before any
process is spawned); when the flag is true — or when no metacharacter
occurs — evaluation proceeds to the pattern checks. -/
theorem C3_metacharacter_gate :
    ∀ (cmd : Str) (s : Settings),
      (containsShellMetacharacters cmd = true ↔
        (str "\n" <:+: cmd ∨ str "&&" <:+: cmd ∨ str "||" <:+: cmd ∨
          str "|" <:+: cmd ∨ str ";" <:+: cmd ∨ str "&" <:+: cmd ∨
          str ">" <:+: cmd ∨ str "<" <:+: cmd ∨ str "`" <:+: cmd ∨
          str "$(" <:+: cmd)) ∧
      (s.allowShellMetacharacters = false →
        containsShellMetacharacters cmd = true →
        authorize cmd s = .error .metacharactersRejected ∧
        (∀ (wd sh : Str) (t : Int) (env : Env) (w : Bool), cmd ≠ [] →
          ExecuteCheck ⟨cmd, wd, sh, t⟩ s env w
            = .error .metacharactersRejected)) ∧
      (s.allowShellMetacharacters = true →
        authorize cmd s = patternChecks cmd s) ∧
      (s.allowShellMetacharacters = false →
        containsShellMetacharacters cmd = false →
        authorize cmd s = patternChecks cmd s) := by
  intro cmd s
  refine ⟨?_, fun hflag hc => ?_, fun hflag => ?_, fun hflag hc => ?_⟩
  · simp [containsShellMetacharacters, metaOperators, goContains_iff]
  · have hauth : authorize cmd s = .error .metacharactersRejected := by
      simp [authorize, validateShellMetacharacters, hflag, hc]
    exact ⟨hauth, fun wd sh t env w hne => by simp [ExecuteCheck, hne, hauth]⟩
  · simp [authorize, validateShellMetacharacters, hflag]
  · simp [authorize, validateShellMetacharacters, hflag, hc]

theorem C3_witness :
    authorize (str "git status; rm -rf /") defaultSettings
      = .error .metacharactersRejected ∧
    authorize (str "git status; rm -rf /")
        { defaultSettings with allowShellMetacharacters := true }
      = patternChecks (str "git status; rm -rf /")
          { defaultSettings with allowShellMetacharacters := true } := by
  refine ⟨((C3_metacharacter_gate (str "git status; rm -rf /")
      defaultSettings).2.1 rfl (by decide)).1, ?_⟩
  exact (C3_metacharacter_gate (str "git status; rm -rf /")
      { defaultSettings with allowShellMetacharacters := true }).2.2.1 rfl

/-! ### Prefix patterns (C4) -/

/-- Claim C4 counterexample: for the pattern "aa*" (prefix P = "aa") and the
non-empty y = "a", the command y ++ P = "aaa" does match, because "aaa"
itself starts with "aa"; the claim asserts matches(y + P, p) is false for
every non-empty y. -/
theorem C4_counterexample :
    goTrimSuffix (str "aa*") ['*'] = str "aa" ∧
    str "a" ≠ ([] : Str) ∧
    str "a" ++ str "aa" = str "aaa" ∧
    matchesPattern (str "aaa") (str "aa*") = true :=
  ⟨by decide, by decide, by decide, by decide⟩

/-- Claim C4 (amended): for every pattern p = P ++ "*" whose prefix P
contains no further wildcard: matches(P, p) and matches(P ++ x, p) hold for
all x (these two parts hold for every P), and matches(y ++ P, p) is false
for non-empty y provided y ++ P does not itself start with P — the
condition the counterexample forces. -/
theorem C4_prefix_pattern :
    ∀ (P x y : Str),
      matchesPattern P (P ++ ['*']) = true ∧
      matchesPattern (P ++ x) (P ++ ['*']) = true ∧
      ('*' ∉ P → y ≠ [] → goHasPrefix (y ++ P) P = false →
        matchesPattern (y ++ P) (P ++ ['*']) = false) := by
  intro P x y
  refine ⟨matchesPattern_of_prefixMatch P P
      (by rw [goHasPrefix_iff]),
    matchesPattern_of_prefixMatch (P ++ x) P
      (by rw [goHasPrefix_iff]; exact List.prefix_append P x),
    fun hstar hy hpre => ?_⟩
  have hPne : P ≠ [] := by
    intro h
    subst h
    simp [goHasPrefix] at hpre
  have hcp : y ++ P ≠ P ++ ['*'] := by
    intro h
    have hp : goHasPrefix (y ++ P) P = true := by
      rw [h, goHasPrefix_iff]
      exact List.prefix_append P ['*']
    simp [hp] at hpre
  have hsuf : goHasSuffix (P ++ ['*']) ['*'] = true := by
    rw [goHasSuffix_iff]
    exact List.suffix_append P ['*']
  have htrim := goTrimSuffix_concat P '*'
  have h1 : matchSuffixStar (y ++ P) (P ++ ['*']) = false := by
    cases hsp : goHasSuffix P [' '] with
    | false => simp [matchSuffixStar, hsuf, htrim, hpre, hsp]
    | true =>
      have hne2 : ¬(y ++ P = goTrimSuffix P [' ']) := by
        intro h
        have hlen := congrArg List.length h
        rw [List.length_append, goTrimSuffix, if_pos hsp,
          List.length_take] at hlen
        have hyl : 0 < y.length := List.length_pos.mpr hy
        have hmin : min (P.length - 1) P.length ≤ P.length :=
          Nat.min_le_right _ _
        omega
      simp [matchSuffixStar, hsuf, htrim, hpre, hsp, hne2]
  have h2 : matchPrefixStar (y ++ P) (P ++ ['*']) = false := by
    have hps : goHasPrefix (P ++ ['*']) ['*'] = false := by
      cases P with
      | nil => exact absurd rfl hPne
      | cons a as =>
        by_cases hb : goHasPrefix ((a :: as) ++ ['*']) ['*'] = true
        · exfalso
          rw [goHasPrefix_iff, List.cons_append, List.cons_prefix_cons] at hb
          exact hstar (by rw [hb.1]; exact List.mem_cons_self a as)
        · simp only [Bool.not_eq_true] at hb
          exact hb
    simp [matchPrefixStar, hps]
  have h3 : matchSplit (y ++ P) (P ++ ['*']) = false := by
    have hsp := splitFirstStar_no_star P hstar []
    simp [matchSplit, hsp, hpre]
  exact matchesPattern_false_of_blocks _ _ hcp h1 h2 h3

theorem C4_witness :
    matchesPattern (str "git ") (str "git " ++ ['*']) = true ∧
    matchesPattern (str "git " ++ str "status") (str "git " ++ ['*']) = true ∧
    matchesPattern (str "x" ++ str "git ") (str "git " ++ ['*']) = false := by
  have h := C4_prefix_pattern (str "git ") (str "status") (str "x")
  exact ⟨h.1, h.2.1, h.2.2 (by decide) (by decide) (by decide)⟩

/-! ### Bare-command accommodation (C5) -/

/-- A command `B ++ z` whose extension `z` is non-empty and space-free
cannot end with `" *"` unless `B` itself ends with a space. -/
theorem no_space_star_suffix (B z : Str) (hB : goHasSuffix B [' '] = false)
    (hz : z ≠ []) (hsp : ' ' ∉ z) : ¬ ([' ', '*'] <:+ B ++ z) := by
  rintro ⟨w, hw⟩
  rcases List.eq_nil_or_concat z with rfl | ⟨z', a, rfl⟩
  · exact hz rfl
  · rw [List.concat_eq_append] at hw
    have h1 : (w ++ [' ']) ++ ['*'] = (B ++ z') ++ [a] := by
      calc (w ++ [' ']) ++ ['*'] = w ++ [' ', '*'] := by simp
        _ = B ++ (z' ++ [a]) := hw
        _ = (B ++ z') ++ [a] := (List.append_assoc _ _ _).symm
    obtain ⟨h2, _⟩ := List.append_inj' h1 rfl
    rcases List.eq_nil_or_concat z' with rfl | ⟨z'', b, rfl⟩
    · have hsufB : goHasSuffix B [' '] = true := by
        rw [goHasSuffix_iff]
        exact ⟨w, by simpa using h2⟩
      simp [hsufB] at hB
    · rw [List.concat_eq_append] at h2
      have h4 : w ++ [' '] = (B ++ z'') ++ [b] := by
        calc w ++ [' '] = B ++ (z'' ++ [b]) := h2
          _ = (B ++ z'') ++ [b] := (List.append_assoc _ _ _).symm
      obtain ⟨_, h6⟩ := List.append_inj' h4 rfl
      injection h6 with h6a _
      apply hsp
      rw [List.concat_eq_append, List.concat_eq_append]
      simp [← h6a]

/-- Claim C5: for every pattern ending in "*" whose prefix ends in a single
space — that is, p = B ++ " *" with the bare word B not itself ending in a
space — the bare command B matches, while a command that merely extends the
bare word without the space (B ++ z with z non-empty and space-free) does
not. -/
theorem C5_bare_command :
    ∀ (B z : Str), goHasSuffix B [' '] = false →
      matchesPattern B (B ++ [' ', '*']) = true ∧
      (z ≠ [] → ' ' ∉ z →
        matchesPattern (B ++ z) (B ++ [' ', '*']) = false) := by
  intro B z hB
  have hassoc : B ++ [' ', '*'] = (B ++ [' ']) ++ ['*'] := by simp
  have hsufstar : goHasSuffix (B ++ [' ', '*']) ['*'] = true := by
    rw [goHasSuffix_iff, hassoc]
    exact List.suffix_append _ _
  have htrim : goTrimSuffix (B ++ [' ', '*']) ['*'] = B ++ [' '] := by
    rw [hassoc]
    exact goTrimSuffix_concat _ '*'
  have htrim2 : goTrimSuffix (B ++ [' ']) [' '] = B := goTrimSuffix_concat B ' '
  have hsufsp : goHasSuffix (B ++ [' ']) [' '] = true := by
    rw [goHasSuffix_iff]
    exact List.suffix_append _ _
  constructor
  · have hne : B ≠ B ++ [' ', '*'] := by
      intro h
      have hl := congrArg List.length h
      simp only [List.length_append, List.length_cons, List.length_nil] at hl
      omega
    have hnp : goHasPrefix B (B ++ [' ']) = false := by
      by_cases hbp : goHasPrefix B (B ++ [' ']) = true
      · exfalso
        rw [goHasPrefix_iff] at hbp
        have hl := hbp.length_le
        simp only [List.length_append, List.length_cons, List.length_nil] at hl
        omega
      · simp only [Bool.not_eq_true] at hbp
        exact hbp
    have hstar : goContains (B ++ [' ', '*']) ['*'] = true := by
      rw [goContains_iff]
      exact ⟨B ++ [' '], [], by simp⟩
    have hblock : matchSuffixStar B (B ++ [' ', '*']) = true := by
      simp [matchSuffixStar, hsufstar, htrim, hnp, hsufsp, htrim2]
    simp [matchesPattern, hne, hstar, hblock]
  · intro hz hsp
    have hPre : goHasPrefix (B ++ z) (B ++ [' ']) = false := by
      by_cases hbp : goHasPrefix (B ++ z) (B ++ [' ']) = true
      · exfalso
        rw [goHasPrefix_iff, append_prefix_cancel] at hbp
        rcases hbp with ⟨r, hr⟩
        exact hsp (by rw [← hr]; simp)
      · simp only [Bool.not_eq_true] at hbp
        exact hbp
    have hcp : B ++ z ≠ B ++ [' ', '*'] := by
      intro h
      have hz2 := List.append_cancel_left h
      rw [hz2] at hsp
      exact hsp (by simp)
    have h1 : matchSuffixStar (B ++ z) (B ++ [' ', '*']) = false := by
      have hne2 : ¬(B ++ z = B) := by
        intro h
        have hl := congrArg List.length h
        rw [List.length_append] at hl
        have hzl : 0 < z.length := List.length_pos.mpr hz
        omega
      simp [matchSuffixStar, hsufstar, htrim, hPre, hsufsp, htrim2, hne2]
    have h2 : matchPrefixStar (B ++ z) (B ++ [' ', '*']) = false := by
      cases B with
      | nil =>
        have hps : goHasPrefix [' ', '*'] ['*'] = false := by decide
        simp [matchPrefixStar, hps]
      | cons b B' =>
        by_cases hb : goHasPrefix (b :: (B' ++ [' ', '*'])) ['*'] = true
        · have hdropEq : goTrimPrefix (b :: (B' ++ [' ', '*'])) ['*']
              = B' ++ [' ', '*'] := by
            simp [goTrimPrefix, hb]
          have hnosuf :
              goHasSuffix (b :: (B' ++ z)) (B' ++ [' ', '*']) = false := by
            by_cases hq :
                goHasSuffix (b :: (B' ++ z)) (B' ++ [' ', '*']) = true
            · exfalso
              rw [goHasSuffix_iff] at hq
              exact no_space_star_suffix (b :: B') z hB hz hsp
                (List.IsSuffix.trans (List.suffix_append _ _) hq)
            · simp only [Bool.not_eq_true] at hq
              exact hq
          simp [matchPrefixStar, hb, hdropEq, hnosuf]
        · simp only [Bool.not_eq_true] at hb
          simp [matchPrefixStar, hb]
    have h3 : matchSplit (B ++ z) (B ++ [' ', '*']) = false := by
      by_cases hstarB : '*' ∈ B
      · obtain ⟨x, yy, hxy⟩ := splitFirstStar_isSome B hstarB
        have hsplit : splitFirstStar (B ++ [' ', '*'])
            = some (x, yy ++ [' ', '*']) :=
          splitFirstStar_append B [' ', '*'] x yy hxy
        have hnosuf : goHasSuffix (B ++ z) (yy ++ [' ', '*']) = false := by
          by_cases hq : goHasSuffix (B ++ z) (yy ++ [' ', '*']) = true
          · exfalso
            rw [goHasSuffix_iff] at hq
            exact no_space_star_suffix B z hB hz hsp
              (List.IsSuffix.trans (List.suffix_append _ _) hq)
          · simp only [Bool.not_eq_true] at hq
            exact hq
        simp [matchSplit, hsplit, hnosuf]
      · have hstarB1 : '*' ∉ B ++ [' '] := by
          intro h
          rcases List.mem_append.mp h with h | h
          · exact hstarB h
          · simp at h
        have hsplit : splitFirstStar (B ++ [' ', '*'])
            = some (B ++ [' '], []) := by
          have hn := splitFirstStar_no_star (B ++ [' ']) hstarB1 []
          simpa using hn
        simp [matchSplit, hsplit, hPre]
    exact matchesPattern_false_of_blocks _ _ hcp h1 h2 h3

theorem C5_witness :
    matchesPattern (str "ls") (str "ls" ++ [' ', '*']) = true ∧
    matchesPattern (str "ls" ++ str "x") (str "ls" ++ [' ', '*']) = false := by
  have h := C5_bare_command (str "ls") (str "x") (by decide)
  exact ⟨h.1, h.2 (by decide) (by decide)⟩

/-! ### Working-directory handling (C1) -/

/-- Claim C1 (amended): the code implements no working-directory
containment: `Settings` has no allowed-working-dirs field (the loader reads
only the five legacy keys, so an `allowed_working_dirs` entry in the file is
ignored), and any non-empty request-supplied working directory — `/etc`
included — is handed to the spawned process unchanged whenever the command
itself passes the empty-command and authorization checks.  No
working-directory-based denial exists in the code. -/
theorem C1_no_working_dir_containment :
    ∀ (p : Params) (raw : Option RawObj) (env : Env) (w : Bool),
      p.command ≠ [] →
      authorize p.command (settingsFromSource raw) = .ok () →
      p.workingDir ≠ [] →
      ExecuteTop p raw env w = .ok
        ⟨p.command, p.workingDir,
          effectiveTimeout p.timeoutSeconds
            (settingsFromSource raw).timeoutSeconds,
          (shellInvocation p.shell p.command w).1,
          (shellInvocation p.shell p.command w).2⟩ := by
  intro p raw env w hne hauth hwd
  have hres : resolveWorkingDir p (settingsFromSource raw) env
      = .ok p.workingDir := by
    unfold resolveWorkingDir
    rw [if_neg hwd]
  unfold ExecuteTop ExecuteCheck
  rw [if_neg hne, hauth, hres]

/-- Claim C1 counterexample: with a settings file configuring
`allowed_working_dirs = ["/home/u/proj"]`, a request to run the allowed
command "pwd" in "/etc" is NOT denied — the claim requires a
WorkingDirNotAllowed denial before any process is spawned — because the
loader ignores the key (the merged settings are exactly the defaults) and
the pipeline produces a spawn plan running in /etc. -/
theorem C1_counterexample :
    loadLegacySettings (some [(str "allowed_working_dirs",
        .jarr [.jstr (str "/home/u/proj")])]) = some defaultSettings ∧
    ExecuteTop ⟨str "pwd", str "/etc", [], 0⟩
        (some [(str "allowed_working_dirs",
          .jarr [.jstr (str "/home/u/proj")])])
        ⟨[], none, none⟩ false
      = .ok ⟨str "pwd", str "/etc", 60, str "sh", [str "-c", str "pwd"]⟩ :=
  ⟨rfl, rfl⟩

theorem C1_witness :
    ExecuteTop ⟨str "git status", str "/etc", [], 0⟩ none ⟨[], none, none⟩
        false
      = .ok ⟨str "git status", str "/etc", 60, str "sh",
          [str "-c", str "git status"]⟩ :=
  C1_no_working_dir_containment ⟨str "git status", str "/etc", [], 0⟩ none
    ⟨[], none, none⟩ false (by decide) rfl (by decide)

/-! ### Settings merging (C10) -/

/-- Claim C10: settings loading merges per field against the built-in
defaults: a field that is absent, fails to parse, is a non-positive
timeout, or is an empty pattern list leaves the corresponding built-in
default in place — in particular an empty allowed_patterns list retains the
default allow-list, which is non-empty and not allow-all — while only a
file that is unreadable or does not unmarshal as a JSON object makes the
loader fail, so that the entire defaults are used. -/
theorem C10_settings_merge :
    settingsFromSource none = defaultSettings ∧
    (∀ m : RawObj, settingsFromSource (some m)
      = ⟨mergedTimeout m, mergedDefaultWorkingDir m, mergedAllowedPatterns m,
          mergedBlockedPatterns m, mergedAllowMeta m⟩) ∧
    (∀ m : RawObj,
      (lookupKey m (str "timeout_seconds") = none →
        mergedTimeout m = defaultSettings.timeoutSeconds) ∧
      (∀ v, lookupKey m (str "timeout_seconds") = some v →
        parseIntJ v = none →
        mergedTimeout m = defaultSettings.timeoutSeconds) ∧
      (∀ v n, lookupKey m (str "timeout_seconds") = some v →
        parseIntJ v = some n → n ≤ 0 →
        mergedTimeout m = defaultSettings.timeoutSeconds) ∧
      (lookupKey m (str "default_working_dir") = none →
        mergedDefaultWorkingDir m = defaultSettings.defaultWorkingDir) ∧
      (∀ v, lookupKey m (str "default_working_dir") = some v →
        parseStringListJ v = [] →
        mergedDefaultWorkingDir m = defaultSettings.defaultWorkingDir) ∧
      (lookupKey m (str "allowed_patterns") = none →
        mergedAllowedPatterns m = defaultSettings.allowedPatterns) ∧
      (∀ v, lookupKey m (str "allowed_patterns") = some v →
        parseStringListJ v = [] →
        mergedAllowedPatterns m = defaultSettings.allowedPatterns) ∧
      (lookupKey m (str "blocked_patterns") = none →
        mergedBlockedPatterns m = defaultSettings.blockedPatterns) ∧
      (∀ v, lookupKey m (str "blocked_patterns") = some v →
        parseStringListJ v = [] →
        mergedBlockedPatterns m = defaultSettings.blockedPatterns) ∧
      (lookupKey m (str "allow_shell_metacharacters") = none →
        mergedAllowMeta m = defaultSettings.allowShellMetacharacters) ∧
      (∀ v, lookupKey m (str "allow_shell_metacharacters") = some v →
        parseBoolJ v = none →
        mergedAllowMeta m = defaultSettings.allowShellMetacharacters)) ∧
    defaultSettings.allowedPatterns ≠ [] ∧
    validateAllowed (str "reboot") defaultSettings.allowedPatterns
      = .error (.notAllowed defaultSettings.allowedPatterns) := by
  refine ⟨rfl, fun m => rfl, fun m => ?_, by decide, rfl⟩
  refine ⟨fun h => ?_, fun v hv hp => ?_, fun v n hv hp hn => ?_,
    fun h => ?_, fun v hv hp => ?_, fun h => ?_, fun v hv hp => ?_,
    fun h => ?_, fun v hv hp => ?_, fun h => ?_, fun v hv hp => ?_⟩
  · simp [mergedTimeout, h]
  · simp [mergedTimeout, hv, hp]
  · simp only [mergedTimeout, hv, hp]
    rw [if_neg (by omega : ¬(0 : Int) < n)]
  · simp [mergedDefaultWorkingDir, h]
  · simp [mergedDefaultWorkingDir, hv, hp]
  · simp [mergedAllowedPatterns, h]
  · simp [mergedAllowedPatterns, hv, hp]
  · simp [mergedBlockedPatterns, h]
  · simp [mergedBlockedPatterns, hv, hp]
  · simp [mergedAllowMeta, h]
  · simp [mergedAllowMeta, hv, hp]

theorem C10_witness :
    mergedAllowedPatterns [(str "allowed_patterns", .jarr [])]
      = defaultSettings.allowedPatterns ∧
    settingsFromSource (some [(str "allowed_patterns", .jarr [])])
      = defaultSettings ∧
    mergedTimeout [(str "timeout_seconds", .jnum (-5))]
      = defaultSettings.timeoutSeconds := by
  refine ⟨(C10_settings_merge.2.2.1
      [(str "allowed_patterns", JValue.jarr [])]).2.2.2.2.2.2.1
      (JValue.jarr []) rfl rfl, rfl,
    (C10_settings_merge.2.2.1
      [(str "timeout_seconds", JValue.jnum (-5))]).2.2.1
      (JValue.jnum (-5)) (-5) rfl rfl (by decide)⟩
